import Mathlib

/-!
Verification of the resilient desktop-automation engine
(`src/drivers/win/fuzzy_match.py`, `hover_detection.py`, `robust_flow.py`,
`driver_robust.py`) against its natural-language specification.

The Python functions are shallowly embedded: pure functions become Lean
functions on `String`/`List`/`ℚ` (Python floats are modelled as exact
rationals), stateful steps become explicit state passing over environment
oracles that stand for the external collaborators (OS windows, clipboard,
OCR, keyboard), and fallible calls return `Option`/`Except`.
-/

namespace ChatGPTEsc

/-! ## Approximate text matching (`fuzzy_match.py`)

`similarity_ratio` delegates to Python's `difflib.SequenceMatcher` with no
junk heuristic (the autojunk rule only fires for strings of length ≥ 200,
far above every string this engine compares).  For the no-junk case
`find_longest_match` returns the longest common contiguous block, ties
broken by smallest start index in `a`, then smallest start index in `b`;
`get_matching_blocks` recursively splits around that block and `ratio` is
`2·M / (len a + len b)` where `M` is the total matched length. -/

/-- Python's `str.lower()` (character-wise; agrees with `Char.toLower` on
the ASCII labels this engine compares). -/
def lowerStr (s : String) : String := ⟨s.data.map Char.toLower⟩

/-- `listPrefixEq needle hay`: `needle` is a prefix of `hay`. -/
def listPrefixEq : List Char → List Char → Bool
  | [], _ => true
  | _ :: _, [] => false
  | c :: cs, d :: ds => c = d && listPrefixEq cs ds

/-- `listContainsSub needle hay`: `needle` occurs contiguously in `hay`
(Python's `needle in hay` on strings). -/
def listContainsSub (needle : List Char) : List Char → Bool
  | [] => listPrefixEq needle []
  | d :: ds => listPrefixEq needle (d :: ds) || listContainsSub needle ds

/-- Python's substring test `needle in hay`. -/
def strContains (hay needle : String) : Bool :=
  listContainsSub needle.data hay.data

/-- Length of the common run of `a` and `b` (from their heads), cut off by
the remaining window sizes `la`, `lb`. -/
def runLen : List Char → List Char → Nat → Nat → Nat
  | a :: as, b :: bs, la + 1, lb + 1 =>
      if a = b then runLen as bs la lb + 1 else 0
  | _, _, _, _ => 0

/-- `find_longest_match` of `difflib.SequenceMatcher` (no junk): the triple
`(i, j, k)` of the longest matching block `a[i:i+k] = b[j:j+k]` inside the
window `[alo, ahi) × [blo, bhi)`, ties broken by smallest `i`, then
smallest `j` (the fold keeps the first block attaining each size). -/
def findLongestMatch (a b : List Char) (alo ahi blo bhi : Nat) :
    Nat × Nat × Nat :=
  (List.range' alo (ahi - alo)).foldl
    (fun best i =>
      (List.range' blo (bhi - blo)).foldl
        (fun best j =>
          let k := runLen (a.drop i) (b.drop j) (ahi - i) (bhi - j)
          if best.2.2 < k then (i, j, k) else best)
        best)
    (alo, blo, 0)

/-- Total size of the matching blocks (`get_matching_blocks`): recursively
split the window around the longest match.  `fuel` dominates the sum of the
window sizes, which strictly decreases at each split. -/
def matchSum : Nat → List Char → List Char → Nat → Nat → Nat → Nat → Nat
  | 0, _, _, _, _, _, _ => 0
  | fuel + 1, a, b, alo, ahi, blo, bhi =>
      let r := findLongestMatch a b alo ahi blo bhi
      if r.2.2 = 0 then 0
      else
        r.2.2 + matchSum fuel a b alo r.1 blo r.2.1 +
          matchSum fuel a b (r.1 + r.2.2) ahi (r.2.1 + r.2.2) bhi

/-- `SequenceMatcher(None, a, b).ratio()` as an exact rational:
`2·M / (len a + len b)`, and `1` when both inputs are empty
(CPython's `_calculate_ratio`). -/
def seqMatcherQuotient (a b : List Char) : ℚ :=
  if a.length + b.length = 0 then 1
  else
    mkRat (2 * (matchSum (a.length + b.length + 1) a b 0 a.length 0 b.length))
      (a.length + b.length)

/-- `similarity_ratio(s1, s2)`: `0` if either string is empty, otherwise the
`SequenceMatcher` quotient of the lowercased strings. -/
def similarity_ratio (s1 s2 : String) : ℚ :=
  if s1 = "" || s2 = "" then 0
  else seqMatcherQuotient (lowerStr s1).data (lowerStr s2).data

/-- The containment score `len(min(a, b, key=len)) / len(max(a, b, key=len))`
of two (already lowercased) strings. -/
def containmentScore (targetLower cl : String) : ℚ :=
  mkRat (min targetLower.data.length cl.data.length)
    (max targetLower.data.length cl.data.length)

/-- Loop of `fuzzy_match` over the candidate list, carrying the running
best match and best score.  The first component of a returned pair is
`Option String` because Python can reach `return (best_match, best_score)`
with `best_match` still `None` (all candidates falsy and `threshold ≤ 0`). -/
def fuzzyMatchGo (target targetLower : String) (threshold : ℚ) :
    List String → Option String → ℚ → Option (Option String × ℚ)
  | [], best, bestScore =>
      if threshold ≤ bestScore then some (best, bestScore) else none
  | c :: rest, best, bestScore =>
      if c = "" then fuzzyMatchGo target targetLower threshold rest best bestScore
      else
        let cl := lowerStr c
        if targetLower = cl then some (some c, 1)
        else if strContains cl targetLower || strContains targetLower cl then
          let score := containmentScore targetLower cl
          if bestScore < score then
            fuzzyMatchGo target targetLower threshold rest (some c) score
          else
            let score2 := similarity_ratio target c
            if bestScore < score2 then
              fuzzyMatchGo target targetLower threshold rest (some c) score2
            else fuzzyMatchGo target targetLower threshold rest best bestScore
        else
          let score2 := similarity_ratio target c
          if bestScore < score2 then
            fuzzyMatchGo target targetLower threshold rest (some c) score2
          else fuzzyMatchGo target targetLower threshold rest best bestScore

/-- `fuzzy_match(target, candidates, threshold)`. -/
def fuzzy_match (target : String) (candidates : List String) (threshold : ℚ) :
    Option (Option String × ℚ) :=
  if target = "" || candidates = [] then none
  else fuzzyMatchGo target (lowerStr target) threshold candidates none 0

/-- Helper for `pyWords`: walk the characters, accumulating the current
word (reversed). -/
def wordsAux : List Char → List Char → List String
  | [], cur => if cur = [] then [] else [⟨cur.reverse⟩]
  | c :: cs, cur =>
      if c.isWhitespace then
        if cur = [] then wordsAux cs [] else ⟨cur.reverse⟩ :: wordsAux cs []
      else wordsAux cs (c :: cur)

/-- Python's no-argument `str.split()`: split on whitespace runs, dropping
empty pieces. -/
def pyWords (s : String) : List String := wordsAux s.data []

/-- `fuzzy_contains(target, text, threshold)`. -/
def fuzzy_contains (target text : String) (threshold : ℚ) : Bool :=
  if target = "" || text = "" then false
  else
    let tl := lowerStr target
    let xl := lowerStr text
    if strContains xl tl || strContains tl xl then true
    else if threshold ≤ similarity_ratio target text then true
    else
      let targetWords := pyWords tl
      let textWords := pyWords xl
      if targetWords = [] then false
      else
        let matched := targetWords.countP
          (fun tw => textWords.any
            (fun w => tw = w || mkRat 8 10 ≤ similarity_ratio tw w))
        mkRat (7 * targetWords.length) 10 ≤ mkRat matched 1

/-- The per-candidate score exactly as the spec words it: an exact match
scores `1.0`, containment (either way) scores `min(len)/max(len)`,
otherwise the similarity ratio.  (Spec-side definition, used to compare the
spec's description of `fuzzy_match` with the code's behaviour.) -/
def specFuzzyScore (target c : String) : ℚ :=
  if lowerStr target = lowerStr c then 1
  else if strContains (lowerStr c) (lowerStr target) ||
      strContains (lowerStr target) (lowerStr c) then
    containmentScore (lowerStr target) (lowerStr c)
  else similarity_ratio target c

/-- Invariant of the `fuzzy_match` loop: a returned pair `(some c, s)` has
`s` above the threshold (except when the exact-match short-circuit returned
`1.0` without consulting the threshold), `c` drawn from the remaining
candidates or the incoming best, and `s` produced by one of the three
scorings (or inherited unchanged from the incoming state). -/
theorem fuzzyMatchGo_spec (target targetLower : String) (th : ℚ) :
    ∀ (rest : List String) (best : Option String) (bs : ℚ) (c : String) (s : ℚ),
      fuzzyMatchGo target targetLower th rest best bs = some (some c, s) →
        (th ≤ s ∨ s = 1) ∧ (c ∈ rest ∨ best = some c) ∧
        (s = 1 ∨ s = containmentScore targetLower (lowerStr c) ∨
          s = similarity_ratio target c ∨ (best = some c ∧ s = bs)) := by
  intro rest
  induction rest with
  | nil =>
    intro best bs c s h
    simp only [fuzzyMatchGo] at h
    split at h
    · rename_i hle
      injection h with h1
      injection h1 with hb hs
      exact ⟨Or.inl (hs ▸ hle), Or.inr hb, Or.inr (Or.inr (Or.inr ⟨hb, hs.symm⟩))⟩
    · exact Option.noConfusion h
  | cons d rest ih =>
    intro best bs c s h
    simp only [fuzzyMatchGo] at h
    split at h
    · obtain ⟨h1, h2, h3⟩ := ih best bs c s h
      refine ⟨h1, ?_, ?_⟩
      · rcases h2 with h2 | h2
        · exact Or.inl (List.mem_cons_of_mem d h2)
        · exact Or.inr h2
      · rcases h3 with h3 | h3 | h3 | h3
        · exact Or.inl h3
        · exact Or.inr (Or.inl h3)
        · exact Or.inr (Or.inr (Or.inl h3))
        · exact Or.inr (Or.inr (Or.inr h3))
    · split at h
      · rename_i hexact
        injection h with h1
        injection h1 with hb hs
        injection hb with hdc
        subst hdc
        exact ⟨Or.inr hs.symm, Or.inl (List.mem_cons_self d rest), Or.inl hs.symm⟩
      · split at h
        · -- containment branch
          split at h
          · -- containment improves the best score
            obtain ⟨h1, h2, h3⟩ := ih (some d) (containmentScore targetLower (lowerStr d)) c s h
            refine ⟨h1, ?_, ?_⟩
            · rcases h2 with h2 | h2
              · exact Or.inl (List.mem_cons_of_mem d h2)
              · injection h2 with hdc
                subst hdc
                exact Or.inl (List.mem_cons_self d rest)
            · rcases h3 with h3 | h3 | h3 | ⟨hb, hs⟩
              · exact Or.inl h3
              · exact Or.inr (Or.inl h3)
              · exact Or.inr (Or.inr (Or.inl h3))
              · injection hb with hdc
                subst hdc
                exact Or.inr (Or.inl hs)
          · -- containment does not improve: fall through to similarity
            split at h
            · obtain ⟨h1, h2, h3⟩ := ih (some d) (similarity_ratio target d) c s h
              refine ⟨h1, ?_, ?_⟩
              · rcases h2 with h2 | h2
                · exact Or.inl (List.mem_cons_of_mem d h2)
                · injection h2 with hdc
                  subst hdc
                  exact Or.inl (List.mem_cons_self d rest)
              · rcases h3 with h3 | h3 | h3 | ⟨hb, hs⟩
                · exact Or.inl h3
                · exact Or.inr (Or.inl h3)
                · exact Or.inr (Or.inr (Or.inl h3))
                · injection hb with hdc
                  subst hdc
                  exact Or.inr (Or.inr (Or.inl hs))
            · obtain ⟨h1, h2, h3⟩ := ih best bs c s h
              refine ⟨h1, ?_, ?_⟩
              · rcases h2 with h2 | h2
                · exact Or.inl (List.mem_cons_of_mem d h2)
                · exact Or.inr h2
              · rcases h3 with h3 | h3 | h3 | h3
                · exact Or.inl h3
                · exact Or.inr (Or.inl h3)
                · exact Or.inr (Or.inr (Or.inl h3))
                · exact Or.inr (Or.inr (Or.inr h3))
        · -- no containment: similarity only
          split at h
          · obtain ⟨h1, h2, h3⟩ := ih (some d) (similarity_ratio target d) c s h
            refine ⟨h1, ?_, ?_⟩
            · rcases h2 with h2 | h2
              · exact Or.inl (List.mem_cons_of_mem d h2)
              · injection h2 with hdc
                subst hdc
                exact Or.inl (List.mem_cons_self d rest)
            · rcases h3 with h3 | h3 | h3 | ⟨hb, hs⟩
              · exact Or.inl h3
              · exact Or.inr (Or.inl h3)
              · exact Or.inr (Or.inr (Or.inl h3))
              · injection hb with hdc
                subst hdc
                exact Or.inr (Or.inr (Or.inl hs))
          · obtain ⟨h1, h2, h3⟩ := ih best bs c s h
            refine ⟨h1, ?_, ?_⟩
            · rcases h2 with h2 | h2
              · exact Or.inl (List.mem_cons_of_mem d h2)
              · exact Or.inr h2
            · rcases h3 with h3 | h3 | h3 | h3
              · exact Or.inl h3
              · exact Or.inr (Or.inl h3)
              · exact Or.inr (Or.inr (Or.inl h3))
              · exact Or.inr (Or.inr (Or.inr h3))

/-- C4: `fuzzy_contains("New chat", "New chat")` is `true` as the claim
states, but `fuzzy_contains("Codex", "Code")` is `true` as well (the
symmetric containment test fires because `"code"` is a substring of
`"codex"`, and the whole-string similarity `8/9` is above the `0.75`
threshold besides) — contradicting the claim and the module's own inline
test table, which expects `False` for this pair. -/
theorem claim_c4_eval :
    fuzzy_contains "New chat" "New chat" (mkRat 3 4) = true ∧
    fuzzy_contains "Codex" "Code" (mkRat 3 4) = true ∧
    similarity_ratio "Codex" "Code" = mkRat 8 9 := by decide

/-- C7 (amended): for any threshold ≤ 1, `fuzzy_match` never returns a
candidate whose returned score is below the threshold; the returned score
is the exact-match score `1.0`, the containment score `min(len)/max(len)`,
or the similarity ratio of the returned candidate.  (The original claim is
refuted by `claim_c7_counterexample`: a containment candidate that fails to
improve the running best is rescored by `similarity_ratio`, which can
exceed both its containment score and the threshold.) -/
theorem claim_c7 (target : String) (cs : List String) (th : ℚ) (c : String)
    (s : ℚ) (hth : th ≤ 1)
    (h : fuzzy_match target cs th = some (some c, s)) :
    th ≤ s ∧ c ∈ cs ∧
      (s = 1 ∨ s = containmentScore (lowerStr target) (lowerStr c) ∨
        s = similarity_ratio target c) := by
  unfold fuzzy_match at h
  split at h
  · exact Option.noConfusion h
  · obtain ⟨h1, h2, h3⟩ := fuzzyMatchGo_spec target (lowerStr target) th cs none 0 c s h
    refine ⟨?_, ?_, ?_⟩
    · rcases h1 with h1 | h1
      · exact h1
      · exact h1.symm ▸ hth
    · rcases h2 with h2 | h2
      · exact h2
      · exact Option.noConfusion h2
    · rcases h3 with h3 | h3 | h3 | ⟨h3, _⟩
      · exact Or.inl h3
      · exact Or.inr (Or.inl h3)
      · exact Or.inr (Or.inr h3)
      · exact Option.noConfusion h3

/-- Witness for C7 (amended) at a concrete input. -/
theorem claim_c7_witness :
    mkRat 7 10 ≤ mkRat 4 5 ∧ "abcde" ∈ ["abcde"] ∧
      (mkRat 4 5 = 1 ∨
        mkRat 4 5 = containmentScore (lowerStr "abcd") (lowerStr "abcde") ∨
        mkRat 4 5 = similarity_ratio "abcd" "abcde") :=
  claim_c7 "abcd" ["abcde"] (mkRat 7 10) "abcde" (mkRat 4 5) (by decide)
    (by decide)

/-- Counterexample to C7 as stated: with target `"abcd"`, candidates
`["xabcd", "abcde"]` and threshold `0.85`, every candidate's score as
described by the spec (containment `4/5 = 0.8` for both) is below the
threshold, so the claim demands `none`; the code instead rescores
`"abcde"` by `similarity_ratio` (`8/9 ≈ 0.889`) after its containment
score fails to beat the running best, and returns it. -/
theorem claim_c7_counterexample :
    specFuzzyScore "abcd" "xabcd" < mkRat 17 20 ∧
    specFuzzyScore "abcd" "abcde" < mkRat 17 20 ∧
    fuzzy_match "abcd" ["xabcd", "abcde"] (mkRat 17 20)
      = some (some "abcde", mkRat 8 9) := by decide

/-! ## Pixel classifiers (`hover_detection.py`, `robust_flow.py`)

`SidebarHoverDetector.analyze_rows` partitions a grayscale sidebar capture
into fixed-height row bands and measures each band's mean background
brightness; `find_highlighted_row` picks the band deviating most from the
normal-background constant 249.  `RobustChatGPTFlow._get_input_button_state`
classifies the count of near-black pixels in a fixed region into one of the
button states. -/

/-- One analyzed sidebar row band (`analyze_rows` dict). -/
structure HRow where
  idx : Nat
  yStart : Nat
  yEnd : Nat
  yCenter : Nat
  bgMean : ℚ
  deviation : ℚ
deriving DecidableEq

/-- Index of the first occurrence of `x` (Python `list.index`). -/
def idxOfQ (x : ℚ) : List ℚ → Nat
  | [] => 0
  | y :: t => if y = x then 0 else idxOfQ x t + 1

/-- Grayscale luminance `0.299·R + 0.587·G + 0.114·B`. -/
def luminance (p : ℚ × ℚ × ℚ) : ℚ :=
  mkRat 299 1000 * p.1 + mkRat 587 1000 * p.2.1 + mkRat 114 1000 * p.2.2

/-- Loop of `analyze_rows`: advance `y` by `rowHeight` while the band
`[y, y+rowHeight)` still fits above the bottom skip, sampling each band's
background pixels (brightness > 200, edges trimmed), and keeping a row dict
only when more than 100 background pixels were found.  `fuel` bounds the
iteration count (the band start strictly grows when `rowHeight > 0`). -/
def analyzeRowsGo (rowHeight bottomSkip : Nat) (gray : List (List ℚ))
    (height width : Nat) : Nat → Nat → Nat → List HRow
  | 0, _, _ => []
  | fuel + 1, y, rowIdx =>
      if y + rowHeight ≤ height - bottomSkip then
        let region := ((gray.drop y).take rowHeight).map
          (fun r => (r.drop 10).take (width - 10 - 10))
        let bgPixels := region.flatten.filter (fun v => (200 : ℚ) < v)
        let rest := analyzeRowsGo rowHeight bottomSkip gray height width fuel
          (y + rowHeight) (rowIdx + 1)
        if 100 < bgPixels.length then
          let bgMean := (bgPixels.foldl (· + ·) 0) / (bgPixels.length : ℚ)
          { idx := rowIdx, yStart := y, yEnd := y + rowHeight,
            yCenter := y + rowHeight / 2, bgMean := bgMean,
            deviation := (249 : ℚ) - bgMean } :: rest
        else rest
      else []

/-- `analyze_rows(sidebar_img)` over an already-grayscale image (the
luminance conversion is `luminance` mapped over an RGB raster). -/
def analyze_rows (rowHeight topSkip bottomSkip : Nat)
    (gray : List (List ℚ)) : List HRow :=
  analyzeRowsGo rowHeight bottomSkip gray gray.length
    ((gray.headD []).length) (gray.length + 1) topSkip 0

/-- `find_highlighted_row`, factored over the analyzed row list: `None`
when there are no rows or the maximum deviation is below the threshold,
otherwise the row at the first index attaining the maximum deviation. -/
def find_highlighted_row_rows (devThreshold : ℚ) (rows : List HRow) :
    Option HRow :=
  match rows with
  | [] => none
  | r0 :: rest =>
      let devs := (r0 :: rest).map (fun r => r.deviation)
      let maxDev := devs.foldl max r0.deviation
      if maxDev < devThreshold then none
      else some ((r0 :: rest).getD (idxOfQ maxDev devs) r0)

/-- `SidebarHoverDetector.find_highlighted_row`. -/
def find_highlighted_row (devThreshold : ℚ) (rowHeight topSkip bottomSkip : Nat)
    (gray : List (List ℚ)) : Option HRow :=
  find_highlighted_row_rows devThreshold
    (analyze_rows rowHeight topSkip bottomSkip gray)

/-- The four button states of `_get_input_button_state`. -/
inductive ButtonState where
  | generating
  | ready
  | idle
  | unknown
deriving DecidableEq

/-- The dark-pixel-count classification at the heart of
`_get_input_button_state`: `60 < n < 400` is the stop button
(`generating`), `n ≥ 400` the send arrow (`ready`), anything else the
waveform (`idle`). -/
def classifyDarkPixels (darkPixels : Nat) : ButtonState :=
  if 60 < darkPixels ∧ darkPixels < 400 then .generating
  else if 400 ≤ darkPixels then .ready
  else .idle

/-- `_get_input_button_state`: `unknown` when no window rect is cached or
the screen grab raises; otherwise the dark-pixel classification. -/
def get_input_button_state (rectPresent grabOk : Bool) (darkPixels : Nat) :
    ButtonState :=
  if !rectPresent then .unknown
  else if !grabOk then .unknown
  else classifyDarkPixels darkPixels

theorem foldlMax_init_le (l : List ℚ) (a : ℚ) : a ≤ l.foldl max a := by
  induction l generalizing a with
  | nil => exact le_refl a
  | cons x t ih => exact le_trans (le_max_left a x) (ih (max a x))

theorem le_foldlMax_of_mem (l : List ℚ) (a x : ℚ) (hx : x ∈ l) :
    x ≤ l.foldl max a := by
  induction l generalizing a with
  | nil => cases hx
  | cons y t ih =>
    simp only [List.foldl_cons]
    rcases List.mem_cons.mp hx with h | h
    · subst h
      exact le_trans (le_max_right a x) (foldlMax_init_le t (max a x))
    · exact ih (max a y) h

theorem foldlMax_init_or_mem (l : List ℚ) (a : ℚ) :
    l.foldl max a = a ∨ l.foldl max a ∈ l := by
  induction l generalizing a with
  | nil => exact Or.inl rfl
  | cons y t ih =>
    simp only [List.foldl_cons]
    rcases ih (max a y) with h | h
    · rcases max_choice a y with hm | hm
      · exact Or.inl (by rw [h, hm])
      · exact Or.inr (by rw [h, hm]; exact List.mem_cons_self y t)
    · exact Or.inr (List.mem_cons_of_mem y h)

theorem idxOfQ_lt_length (x : ℚ) (l : List ℚ) (hx : x ∈ l) :
    idxOfQ x l < l.length := by
  induction l with
  | nil => cases hx
  | cons y t ih =>
    simp only [idxOfQ]
    split
    · simp
    · rename_i hne
      have hxt : x ∈ t := by
        rcases List.mem_cons.mp hx with h | h
        · exact absurd h.symm hne
        · exact h
      simpa using Nat.succ_lt_succ (ih hxt)

theorem idxOfQ_get (x : ℚ) (l : List ℚ) (hx : x ∈ l)
    (h : idxOfQ x l < l.length) : l.get ⟨idxOfQ x l, h⟩ = x := by
  induction l with
  | nil => cases hx
  | cons y t ih =>
    by_cases hy : y = x
    · simp [idxOfQ, hy]
    · have hxt : x ∈ t := by
        rcases List.mem_cons.mp hx with h | h
        · exact absurd h.symm hy
        · exact h
      have h2 : idxOfQ x t < t.length := idxOfQ_lt_length x t hxt
      simp only [idxOfQ, hy, if_false]
      simpa using ih hxt h2

theorem idxOfQ_first (x : ℚ) (l : List ℚ) (j : Nat) (hj : j < l.length)
    (hlt : j < idxOfQ x l) : l.get ⟨j, hj⟩ ≠ x := by
  induction l generalizing j with
  | nil => cases hj
  | cons y t ih =>
    simp only [idxOfQ] at hlt
    split at hlt
    · cases hlt
    · rename_i hne
      match j with
      | 0 => simpa using hne
      | j + 1 =>
        have := ih (j := j) (by simpa using Nat.lt_of_succ_lt_succ hj)
          (Nat.lt_of_succ_lt_succ hlt)
        simpa using this

theorem get_map_deviation (l : List HRow) (i : Nat)
    (h1 : i < (l.map (fun r => r.deviation)).length) (h2 : i < l.length) :
    (l.map (fun r => r.deviation)).get ⟨i, h1⟩ = (l.get ⟨i, h2⟩).deviation := by
  simp [List.get_map]

/-- C8: for every list of analyzed sidebar rows, the highlighted-row
detector returns `none` when every row's deviation from the
normal-background constant is below `deviation_threshold`, and otherwise
returns exactly the row of maximum deviation, ties broken by the first
occurrence in row order. -/
theorem claim_c8 (th : ℚ) (rows : List HRow) :
    ((∀ r ∈ rows, r.deviation < th) →
      find_highlighted_row_rows th rows = none) ∧
    ((∃ r ∈ rows, th ≤ r.deviation) →
      ∃ (i : Nat) (hi : i < rows.length),
        find_highlighted_row_rows th rows = some (rows.get ⟨i, hi⟩) ∧
        (∀ (j : Nat) (hj : j < rows.length),
          (rows.get ⟨j, hj⟩).deviation ≤ (rows.get ⟨i, hi⟩).deviation) ∧
        (∀ (j : Nat) (hj : j < rows.length), j < i →
          (rows.get ⟨j, hj⟩).deviation < (rows.get ⟨i, hi⟩).deviation)) := by
  match rows with
  | [] =>
    refine ⟨fun _ => rfl, fun h => ?_⟩
    obtain ⟨r, hr, _⟩ := h
    cases hr
  | r0 :: rest =>
    set devs := (r0 :: rest).map (fun r => r.deviation) with hdevs
    set m := devs.foldl max r0.deviation with hm
    have hmem : m ∈ devs := by
      rcases foldlMax_init_or_mem devs r0.deviation with h | h
      · rw [hm, h, hdevs]
        exact List.mem_cons_self _ _
      · exact h
    have hall : ∀ x ∈ devs, x ≤ m := fun x hx =>
      le_foldlMax_of_mem devs r0.deviation x hx
    have hrow : ∃ r ∈ r0 :: rest, r.deviation = m := by
      obtain ⟨r, hr, hrd⟩ := List.mem_map.mp hmem
      exact ⟨r, hr, hrd⟩
    constructor
    · intro hlt
      obtain ⟨r, hr, hrd⟩ := hrow
      have : m < th := hrd ▸ hlt r hr
      simp only [find_highlighted_row_rows]
      rw [← hdevs, ← hm, if_pos this]
    · rintro ⟨r, hr, hth⟩
      have hmth : th ≤ m := le_trans hth (hall r.deviation
        (List.mem_map.mpr ⟨r, hr, rfl⟩))
      have hnot : ¬ m < th := not_lt.mpr hmth
      have hilen : idxOfQ m devs < devs.length := idxOfQ_lt_length m devs hmem
      have hlen : devs.length = (r0 :: rest).length := List.length_map _ _
      have hi : idxOfQ m devs < (r0 :: rest).length := hlen ▸ hilen
      refine ⟨idxOfQ m devs, hi, ?_, ?_, ?_⟩
      · simp only [find_highlighted_row_rows]
        rw [← hdevs, ← hm, if_neg hnot, List.getD_eq_get _ _ hi]
      · intro j hj
        have hjd : ((r0 :: rest).get ⟨j, hj⟩).deviation ∈ devs := by
          rw [hdevs]
          exact List.mem_map.mpr ⟨_, List.get_mem _ _ _, rfl⟩
        have hgm : ((r0 :: rest).get ⟨idxOfQ m devs, hi⟩).deviation = m := by
          have h2 := get_map_deviation (r0 :: rest) (idxOfQ m devs) hilen hi
          rw [← h2]
          exact idxOfQ_get m devs hmem hilen
        rw [hgm]
        exact hall _ hjd
      · intro j hj hji
        have hjlen : j < devs.length := hlen ▸ hj
        have hne : devs.get ⟨j, hjlen⟩ ≠ m := idxOfQ_first m devs j hjlen hji
        have hgm : ((r0 :: rest).get ⟨idxOfQ m devs, hi⟩).deviation = m := by
          have h2 := get_map_deviation (r0 :: rest) (idxOfQ m devs) hilen hi
          rw [← h2]
          exact idxOfQ_get m devs hmem hilen
        have hjd : devs.get ⟨j, hjlen⟩ = ((r0 :: rest).get ⟨j, hj⟩).deviation :=
          get_map_deviation (r0 :: rest) j hjlen hj
        have hle : ((r0 :: rest).get ⟨j, hj⟩).deviation ≤ m := by
          rw [← hjd]
          exact hall _ (List.get_mem _ _ _)
        rw [hgm]
        rcases lt_or_eq_of_le hle with h | h
        · exact h
        · exact absurd (hjd.trans h) hne

/-- Witness for C8 at a concrete row list: the second row has the maximum
deviation `5 ≥ 2` and is returned. -/
theorem claim_c8_witness :
    ∃ (i : Nat)
      (hi : i < ([⟨0, 35, 70, 52, mkRat 248 1, mkRat 1 1⟩,
        ⟨1, 70, 105, 87, mkRat 244 1, mkRat 5 1⟩] : List HRow).length),
      find_highlighted_row_rows (mkRat 2 1)
          [⟨0, 35, 70, 52, mkRat 248 1, mkRat 1 1⟩,
            ⟨1, 70, 105, 87, mkRat 244 1, mkRat 5 1⟩]
        = some (([⟨0, 35, 70, 52, mkRat 248 1, mkRat 1 1⟩,
            ⟨1, 70, 105, 87, mkRat 244 1, mkRat 5 1⟩] : List HRow).get ⟨i, hi⟩) ∧
      (∀ (j : Nat)
        (hj : j < ([⟨0, 35, 70, 52, mkRat 248 1, mkRat 1 1⟩,
          ⟨1, 70, 105, 87, mkRat 244 1, mkRat 5 1⟩] : List HRow).length),
        (([⟨0, 35, 70, 52, mkRat 248 1, mkRat 1 1⟩,
          ⟨1, 70, 105, 87, mkRat 244 1, mkRat 5 1⟩] : List HRow).get
            ⟨j, hj⟩).deviation ≤
          (([⟨0, 35, 70, 52, mkRat 248 1, mkRat 1 1⟩,
            ⟨1, 70, 105, 87, mkRat 244 1, mkRat 5 1⟩] : List HRow).get
              ⟨i, hi⟩).deviation) ∧
      (∀ (j : Nat)
        (hj : j < ([⟨0, 35, 70, 52, mkRat 248 1, mkRat 1 1⟩,
          ⟨1, 70, 105, 87, mkRat 244 1, mkRat 5 1⟩] : List HRow).length),
        j < i →
        (([⟨0, 35, 70, 52, mkRat 248 1, mkRat 1 1⟩,
          ⟨1, 70, 105, 87, mkRat 244 1, mkRat 5 1⟩] : List HRow).get
            ⟨j, hj⟩).deviation <
          (([⟨0, 35, 70, 52, mkRat 248 1, mkRat 1 1⟩,
            ⟨1, 70, 105, 87, mkRat 244 1, mkRat 5 1⟩] : List HRow).get
              ⟨i, hi⟩).deviation) :=
  (claim_c8 (mkRat 2 1)
      [⟨0, 35, 70, 52, mkRat 248 1, mkRat 1 1⟩,
        ⟨1, 70, 105, 87, mkRat 244 1, mkRat 5 1⟩]).2
    ⟨⟨1, 70, 105, 87, mkRat 244 1, mkRat 5 1⟩, by decide, by decide⟩

/-- C9: the button-state classifier maps every dark-pixel count to exactly
one of the three states via its two fixed thresholds: `generating` exactly
on `60 < n < 400`, `ready` exactly on `n ≥ 400`, `idle` exactly on
`n ≤ 60` — non-overlapping ranges that jointly cover every count. -/
theorem claim_c9 (c : Nat) :
    (classifyDarkPixels c = ButtonState.generating ↔ 60 < c ∧ c < 400) ∧
    (classifyDarkPixels c = ButtonState.ready ↔ 400 ≤ c) ∧
    (classifyDarkPixels c = ButtonState.idle ↔ c ≤ 60) := by
  unfold classifyDarkPixels
  split_ifs with h1 h2 <;> refine ⟨?_, ?_, ?_⟩ <;> simp_all <;> omega

/-! ## `_retry_with_recovery` (`robust_flow.py`)

Environment oracles stand for the window collaborators consulted on each
attempt; the operation's behaviour on each call is `Option Bool`
(`none` = the call raised).  The body of each attempt sits inside Python's
`try`, modelled by `Except Unit`; the `except` handler converts any raise
into a retry. -/

/-- What the environment does on one attempt of `_retry_with_recovery`. -/
structure RetryEnv where
  ready1 : Bool
  hwndValid : Bool
  ready2 : Bool
  refreshOk : Bool
  foregroundOk : Bool
  opResult : Option Bool
deriving DecidableEq

/-- The `try` body of one attempt: pre-checks may `continue` (`ok none`),
the operation may raise (`error`), return truthy (`ok (some true)`) or
falsy (`ok none` after the falsy-result branch retries). -/
def retryAttemptBody (e : RetryEnv) : Except Unit (Option Bool) :=
  if e.ready1 = false ∧ (e.hwndValid = false ∨ e.ready2 = false) ∧
      e.refreshOk = false then
    Except.ok none
  else if e.foregroundOk = false then Except.ok none
  else
    match e.opResult with
    | none => Except.error ()
    | some true => Except.ok (some true)
    | some false => Except.ok none

/-- The `except Exception` handler around the body: a raise becomes a
logged retry. -/
def retryAttemptCaught (e : RetryEnv) : Option Bool :=
  match retryAttemptBody e with
  | Except.error _ => none
  | Except.ok r => r

/-- Whether the operation gets invoked on this attempt (both the
window-ready recovery and the foreground restore must have let the attempt
through). -/
def opInvoked (e : RetryEnv) : Bool :=
  if e.ready1 = false ∧ (e.hwndValid = false ∨ e.ready2 = false) ∧
      e.refreshOk = false then false
  else if e.foregroundOk = false then false
  else true

/-- The retry loop `for attempt in range(1, max_attempts + 1)`. -/
def retryGo (env : Nat → RetryEnv) : Nat → Nat → Bool
  | _, 0 => false
  | i, n + 1 =>
      match retryAttemptCaught (env i) with
      | some true => true
      | _ => retryGo env (i + 1) n

/-- `_retry_with_recovery(operation, name, max_attempts)`. -/
def retry_with_recovery (env : Nat → RetryEnv) (maxAttempts : Nat) : Bool :=
  retryGo env 1 maxAttempts

/-- Number of operation invocations performed by the loop. -/
def retryInvocations (env : Nat → RetryEnv) : Nat → Nat → Nat
  | _, 0 => 0
  | i, n + 1 =>
      (if opInvoked (env i) then 1 else 0) +
        (match retryAttemptCaught (env i) with
         | some true => 0
         | _ => retryInvocations env (i + 1) n)

theorem retryGo_false (env : Nat → RetryEnv) :
    ∀ (n i : Nat), (∀ j, retryAttemptCaught (env j) ≠ some true) →
      retryGo env i n = false := by
  intro n
  induction n with
  | zero => intro i _; rfl
  | succ n ih =>
    intro i h
    simp only [retryGo]
    have := h i
    match hx : retryAttemptCaught (env i) with
    | some true => exact absurd hx this
    | some false => simp only [hx]; exact ih (i + 1) h
    | none => simp only [hx]; exact ih (i + 1) h

theorem retryInvocations_le (env : Nat → RetryEnv) :
    ∀ (n i : Nat), retryInvocations env i n ≤ n := by
  intro n
  induction n with
  | zero => intro i; exact Nat.le_refl 0
  | succ n ih =>
    intro i
    simp only [retryInvocations]
    have h1 : (if opInvoked (env i) then 1 else 0) ≤ 1 := by
      split <;> omega
    have h2 : (match retryAttemptCaught (env i) with
        | some true => 0
        | _ => retryInvocations env (i + 1) n) ≤ n := by
      match retryAttemptCaught (env i) with
      | some true => exact Nat.zero_le n
      | some false => exact ih (i + 1)
      | none => exact ih (i + 1)
    omega

/-- C5: `_retry_with_recovery` invokes the operation at most
`maxAttempts` times; and whenever no attempt produces a truthy result — in
particular when the operation raises on every call, so that each raise is
absorbed by the per-attempt exception handler — the wrapper returns `false`
to its caller instead of propagating. -/
theorem claim_c5 (env : Nat → RetryEnv) (maxAttempts : Nat) :
    retryInvocations env 1 maxAttempts ≤ maxAttempts ∧
    ((∀ j, (env j).opResult = none) →
      retry_with_recovery env maxAttempts = false) ∧
    ((∀ j, retryAttemptCaught (env j) ≠ some true) →
      retry_with_recovery env maxAttempts = false) := by
  refine ⟨retryInvocations_le env maxAttempts 1, ?_, ?_⟩
  · intro h
    refine retryGo_false env maxAttempts 1 (fun j => ?_)
    have hc : retryAttemptCaught (env j) = none := by
      unfold retryAttemptCaught retryAttemptBody
      rw [h j]
      by_cases h1 : (env j).ready1 = false ∧
          ((env j).hwndValid = false ∨ (env j).ready2 = false) ∧
          (env j).refreshOk = false
      · rw [if_pos h1]
      · rw [if_neg h1]
        by_cases h2 : (env j).foregroundOk = false
        · rw [if_pos h2]
        · rw [if_neg h2]
    rw [hc]
    exact fun hx => Option.noConfusion hx
  · exact retryGo_false env maxAttempts 1

/-- Witness for C5: an operation that raises on all of 3 attempts is
invoked at most 3 times and the wrapper returns `false`. -/
theorem claim_c5_witness :
    retryInvocations (fun _ => ⟨true, true, true, true, true, none⟩) 1 3 ≤ 3 ∧
    retry_with_recovery (fun _ => ⟨true, true, true, true, true, none⟩) 3
      = false :=
  ⟨(claim_c5 (fun _ => ⟨true, true, true, true, true, none⟩) 3).1,
    (claim_c5 (fun _ => ⟨true, true, true, true, true, none⟩) 3).2.1
      (fun _ => rfl)⟩

/-! ## Step 6: click conversation (`robust_flow.py`)

`step6_click_conversation` scans and clicks the conversation label, then
reads the window title and runs the word-overlap `_fuzzy_match` against it
— but returns `True` on both verification outcomes ("Still return true -
might be OK"), as does the Ctrl+K fallback. -/

/-- `RobustChatGPTFlow._fuzzy_match(target, text, threshold=0.6)`: word
overlap ratio of the two lowercased word sets, or plain containment. -/
def word_overlap_match (target text : String) (threshold : ℚ) : Bool :=
  let targetWords := (pyWords (lowerStr target)).eraseDups
  let textWords := (pyWords (lowerStr text)).eraseDups
  if targetWords = [] then false
  else
    let overlap := targetWords.countP (fun w => textWords.contains w)
    threshold ≤ mkRat overlap targetWords.length ||
      strContains (lowerStr text) (lowerStr target)

/-- Environment of one scan-and-click attempt in step 6. -/
structure Step6Attempt where
  foregroundOk : Bool
  clickOk : Bool
  title : String
deriving DecidableEq

/-- Environment of one `step6_click_conversation` run. -/
structure Step6Env where
  viable : Bool
  attempts : List Step6Attempt
  searchOk : Bool
  searchTitle : String
deriving DecidableEq

/-- The attempt loop of step 6 followed by the Ctrl+K fallback.  The two
`if _ then true else true` branches mirror the source: the title
verification decides only which message is logged, never the step
outcome. -/
def step6Go (conversationName : String) :
    List Step6Attempt → Bool → String → Bool
  | [], searchOk, searchTitle =>
      if searchOk then
        if word_overlap_match conversationName searchTitle (mkRat 3 5) then
          true
        else true
      else false
  | a :: rest, searchOk, searchTitle =>
      if a.foregroundOk = false then
        step6Go conversationName rest searchOk searchTitle
      else if a.clickOk then
        if word_overlap_match conversationName a.title (mkRat 3 5) then true
        else true
      else step6Go conversationName rest searchOk searchTitle

/-- `step6_click_conversation(conversation_name)`. -/
def step6_click_conversation (env : Step6Env) (conversationName : String) :
    Bool :=
  if env.viable = false then false
  else step6Go conversationName env.attempts env.searchOk env.searchTitle

theorem step6Go_title_irrelevant (name s1 s2 : String) :
    ∀ (attempts : List Step6Attempt) (searchOk : Bool) (st : String),
      step6Go name (attempts.map (fun a => ⟨a.foregroundOk, a.clickOk, s1⟩))
          searchOk s2
        = step6Go name attempts searchOk st := by
  intro attempts
  induction attempts with
  | nil =>
    intro searchOk st
    cases searchOk with
    | false => rfl
    | true =>
      show (if word_overlap_match name s2 (mkRat 3 5) then true else true) =
        (if word_overlap_match name st (mkRat 3 5) then true else true)
      split <;> split <;> rfl
  | cons a rest ih =>
    intro searchOk st
    simp only [List.map_cons, step6Go]
    dsimp only
    by_cases h1 : a.foregroundOk = false
    · rw [if_pos h1, if_pos h1]
      exact ih searchOk st
    · rw [if_neg h1, if_neg h1]
      by_cases h2 : a.clickOk = true
      · rw [if_pos h2, if_pos h2]
        split <;> split <;> rfl
      · rw [if_neg h2, if_neg h2]
        exact ih searchOk st

theorem step6Go_true_iff (name : String) :
    ∀ (attempts : List Step6Attempt) (searchOk : Bool) (st : String),
      step6Go name attempts searchOk st = true ↔
        ((∃ a ∈ attempts, a.foregroundOk = true ∧ a.clickOk = true) ∨
          searchOk = true) := by
  intro attempts
  induction attempts with
  | nil =>
    intro searchOk st
    cases searchOk with
    | false =>
      simp only [step6Go]
      constructor
      · intro h
        exact absurd h (by simp)
      · rintro (⟨a, ha, _⟩ | hs)
        · cases ha
        · exact absurd hs (by simp)
    | true =>
      constructor
      · intro _
        exact Or.inr rfl
      · intro _
        show (if word_overlap_match name st (mkRat 3 5) then true else true)
          = true
        split <;> rfl
  | cons a rest ih =>
    intro searchOk st
    simp only [step6Go]
    by_cases h1 : a.foregroundOk = false
    · rw [if_pos h1, ih searchOk st]
      constructor
      · rintro (⟨b, hb, h⟩ | hs)
        · exact Or.inl ⟨b, List.mem_cons_of_mem a hb, h⟩
        · exact Or.inr hs
      · rintro (⟨b, hb, h⟩ | hs)
        · rcases List.mem_cons.mp hb with rfl | hb
          · exact absurd h.1 (by simp [h1])
          · exact Or.inl ⟨b, hb, h⟩
        · exact Or.inr hs
    · have hfg2 : a.foregroundOk = true := by
        cases h : a.foregroundOk
        · exact absurd h h1
        · rfl
      rw [if_neg h1]
      by_cases h2 : a.clickOk = true
      · rw [if_pos h2]
        constructor
        · intro _
          exact Or.inl ⟨a, List.mem_cons_self a rest, hfg2, h2⟩
        · intro _
          split <;> rfl
      · rw [if_neg h2, ih searchOk st]
        constructor
        · rintro (⟨b, hb, h⟩ | hs)
          · exact Or.inl ⟨b, List.mem_cons_of_mem a hb, h⟩
          · exact Or.inr hs
        · rintro (⟨b, hb, h⟩ | hs)
          · rcases List.mem_cons.mp hb with rfl | hb
            · exact absurd h.2 h2
            · exact Or.inl ⟨b, hb, h⟩
          · exact Or.inr hs

/-- C3 (amended): step 6 reports success exactly when the window was
viable and either some scan attempt got foreground and a successful click,
or the Ctrl+K fallback succeeded — independently of the fuzzy title
verification, whose outcome affects only logging (every title can be
replaced without changing the result). -/
theorem claim_c3 (name s1 s2 : String) (env : Step6Env) :
    step6_click_conversation
        ⟨env.viable, env.attempts.map (fun a => ⟨a.foregroundOk, a.clickOk, s1⟩),
          env.searchOk, s2⟩ name
      = step6_click_conversation env name ∧
    (step6_click_conversation env name = true ↔
      env.viable = true ∧
        ((∃ a ∈ env.attempts, a.foregroundOk = true ∧ a.clickOk = true) ∨
          env.searchOk = true)) := by
  constructor
  · simp only [step6_click_conversation]
    split
    · rfl
    · exact step6Go_title_irrelevant name s1 s2 env.attempts env.searchOk
        env.searchTitle
  · simp only [step6_click_conversation]
    split
    · rename_i hv
      constructor
      · intro h; exact absurd h (by simp)
      · rintro ⟨hv2, _⟩
        exact absurd hv2 (by simp [hv])
    · rename_i hv
      have hv2 : env.viable = true := by
        cases h : env.viable
        · exact absurd h hv
        · rfl
      rw [step6Go_true_iff name env.attempts env.searchOk env.searchTitle]
      constructor
      · intro h; exact ⟨hv2, h⟩
      · rintro ⟨_, h⟩; exact h

/-- Counterexample to C3 as stated: the window is viable, the first scan
attempt clicks successfully, but the window title `"zzz"` fails the fuzzy
word-overlap verification against `"o3 test"` — and step 6 still reports
success. -/
theorem claim_c3_counterexample :
    step6_click_conversation ⟨true, [⟨true, true, "zzz"⟩], false, ""⟩
        "o3 test" = true ∧
    word_overlap_match "o3 test" "zzz" (mkRat 3 5) = false := by decide

/-! ## Step 9: wait for response (`robust_flow.py`)

The polling loop is driven by a finite trace of observations (one per loop
iteration; the trace ending models the timeout).  Each observation is
either a foreground loss or a button-state reading. -/

/-- One polling observation of the step-9 loop. -/
inductive Step9Obs where
  | fgLost
  | state (s : ButtonState)
deriving DecidableEq

/-- Result of the step-9 loop: outcome, number of observations consumed,
number of `_clear_input_if_needed` calls issued. -/
structure Step9Out where
  result : Bool
  consumed : Nat
  clears : Nat
deriving DecidableEq

/-- The step-9 polling loop (`while (time.time() - start_time) < timeout`)
with state `(generation_started, consecutive_idle, foreground_failures)`. -/
def step9Loop (genStarted : Bool) (consIdle fgFail : Nat) :
    List Step9Obs → Step9Out
  | [] => ⟨false, 0, 0⟩
  | o :: rest =>
      match o with
      | .fgLost =>
          if 20 ≤ fgFail + 1 then ⟨false, 1, 0⟩
          else
            let r := step9Loop genStarted consIdle (fgFail + 1) rest
            ⟨r.result, r.consumed + 1, r.clears⟩
      | .state ButtonState.generating =>
          let r := step9Loop true 0 0 rest
          ⟨r.result, r.consumed + 1, r.clears⟩
      | .state ButtonState.ready =>
          let r := step9Loop genStarted consIdle 0 rest
          ⟨r.result, r.consumed + 1, r.clears + 1⟩
      | .state ButtonState.idle =>
          if genStarted ∧ 3 ≤ consIdle + 1 then ⟨true, 1, 0⟩
          else if genStarted = false ∧ 5 ≤ consIdle + 1 then ⟨true, 1, 0⟩
          else
            let r := step9Loop genStarted (consIdle + 1) 0 rest
            ⟨r.result, r.consumed + 1, r.clears⟩
      | .state ButtonState.unknown =>
          let r := step9Loop genStarted consIdle fgFail rest
          ⟨r.result, r.consumed + 1, r.clears⟩

/-- `step9_wait_for_response(timeout)`. -/
def step9_wait_for_response (viable : Bool) (obs : List Step9Obs) :
    Step9Out :=
  if viable = false then ⟨false, 0, 0⟩
  else step9Loop false 0 0 obs

/-- Trace-level: has a `generating` reading been seen (starting from
`g`)? -/
def genSeen (g : Bool) (l : List Step9Obs) : Bool :=
  l.foldl
    (fun b o =>
      b || (match o with
        | Step9Obs.state ButtonState.generating => true
        | _ => false))
    g

/-- Trace-level: the number of `idle` readings since the most recent
`generating` reading (starting from `c`); `ready`, `unknown` and
foreground losses neither count nor reset. -/
def idleRun (c : Nat) (l : List Step9Obs) : Nat :=
  l.foldl
    (fun acc o =>
      match o with
      | Step9Obs.state ButtonState.generating => 0
      | Step9Obs.state ButtonState.idle => acc + 1
      | _ => acc)
    c

/-- Trace-level: number of `ready` readings. -/
def countReadys (l : List Step9Obs) : Nat :=
  l.countP
    (fun o =>
      match o with
      | Step9Obs.state ButtonState.ready => true
      | _ => false)

theorem genSeen_true (l : List Step9Obs) : genSeen true l = true := by
  induction l with
  | nil => rfl
  | cons o rest ih => simpa [genSeen] using ih

theorem step9Loop_true_spec :
    ∀ (obs : List Step9Obs) (g : Bool) (ci fg : Nat),
      (step9Loop g ci fg obs).result = true →
        ∃ k, k < obs.length ∧
          obs.get? k = some (Step9Obs.state ButtonState.idle) ∧
          (genSeen g (obs.take (k + 1)) = true →
            3 ≤ idleRun ci (obs.take (k + 1))) ∧
          (genSeen g (obs.take (k + 1)) = false →
            5 ≤ idleRun ci (obs.take (k + 1))) := by
  intro obs
  induction obs with
  | nil =>
    intro g ci fg h
    simp [step9Loop] at h
  | cons o rest ih =>
    intro g ci fg h
    match o with
    | Step9Obs.fgLost =>
      simp only [step9Loop] at h
      split at h
      · simp at h
      · obtain ⟨k, hk, hget, h3, h5⟩ := ih g ci (fg + 1) h
        refine ⟨k + 1, by simpa using Nat.succ_lt_succ hk, by simpa using hget,
          ?_, ?_⟩ <;>
          simpa [List.take_succ_cons, genSeen, idleRun] using (by
            first
              | exact h3
              | exact h5 : _)
    | Step9Obs.state ButtonState.generating =>
      simp only [step9Loop] at h
      obtain ⟨k, hk, hget, h3, _⟩ := ih true 0 0 h
      refine ⟨k + 1, by simpa using Nat.succ_lt_succ hk, by simpa using hget,
        ?_, ?_⟩
      · intro _
        simpa [List.take_succ_cons, idleRun] using
          h3 (by simpa [genSeen] using genSeen_true (rest.take (k + 1)))
      · intro hfalse
        rw [List.take_succ_cons] at hfalse
        simp only [genSeen, List.foldl_cons, Bool.or_true] at hfalse
        exact absurd (genSeen_true (rest.take (k + 1))) (by simp [genSeen, hfalse])
    | Step9Obs.state ButtonState.ready =>
      simp only [step9Loop] at h
      obtain ⟨k, hk, hget, h3, h5⟩ := ih g ci 0 h
      refine ⟨k + 1, by simpa using Nat.succ_lt_succ hk, by simpa using hget,
        ?_, ?_⟩
      · intro hg
        rw [List.take_succ_cons] at hg ⊢
        simp only [genSeen, List.foldl_cons, Bool.or_false] at hg
        simpa [idleRun] using h3 hg
      · intro hg
        rw [List.take_succ_cons] at hg ⊢
        simp only [genSeen, List.foldl_cons, Bool.or_false] at hg
        simpa [idleRun] using h5 hg
    | Step9Obs.state ButtonState.unknown =>
      simp only [step9Loop] at h
      obtain ⟨k, hk, hget, h3, h5⟩ := ih g ci fg h
      refine ⟨k + 1, by simpa using Nat.succ_lt_succ hk, by simpa using hget,
        ?_, ?_⟩
      · intro hg
        rw [List.take_succ_cons] at hg ⊢
        simp only [genSeen, List.foldl_cons, Bool.or_false] at hg
        simpa [idleRun] using h3 hg
      · intro hg
        rw [List.take_succ_cons] at hg ⊢
        simp only [genSeen, List.foldl_cons, Bool.or_false] at hg
        simpa [idleRun] using h5 hg
    | Step9Obs.state ButtonState.idle =>
      simp only [step9Loop] at h
      split at h
      · rename_i hcond
        refine ⟨0, by simp, by simp, ?_, ?_⟩
        · intro _
          simpa [List.take_succ_cons, idleRun] using hcond.2
        · intro hg
          simp [genSeen] at hg
          exact absurd hcond.1 (by simp [hg])
      · split at h
        · rename_i hcond2
          refine ⟨0, by simp, by simp, ?_, ?_⟩
          · intro hg
            simp [genSeen] at hg
            exact absurd hg (by simp [hcond2.1])
          · intro _
            simpa [List.take_succ_cons, idleRun] using hcond2.2
        · obtain ⟨k, hk, hget, h3, h5⟩ := ih g (ci + 1) 0 h
          refine ⟨k + 1, by simpa using Nat.succ_lt_succ hk,
            by simpa using hget, ?_, ?_⟩
          · intro hg
            rw [List.take_succ_cons] at hg ⊢
            simp only [genSeen, List.foldl_cons, Bool.or_false] at hg
            simpa [idleRun] using h3 hg
          · intro hg
            rw [List.take_succ_cons] at hg ⊢
            simp only [genSeen, List.foldl_cons, Bool.or_false] at hg
            simpa [idleRun] using h5 hg

theorem step9Loop_clears_spec :
    ∀ (obs : List Step9Obs) (g : Bool) (ci fg : Nat),
      (step9Loop g ci fg obs).clears =
        countReadys (obs.take (step9Loop g ci fg obs).consumed) := by
  intro obs
  induction obs with
  | nil => intro g ci fg; rfl
  | cons o rest ih =>
    intro g ci fg
    match o with
    | Step9Obs.fgLost =>
      simp only [step9Loop]
      split
      · rfl
      · simpa [List.take_succ_cons, countReadys] using ih g ci (fg + 1)
    | Step9Obs.state ButtonState.generating =>
      simpa [step9Loop, List.take_succ_cons, countReadys] using ih true 0 0
    | Step9Obs.state ButtonState.ready =>
      simpa [step9Loop, List.take_succ_cons, countReadys] using ih g ci 0
    | Step9Obs.state ButtonState.unknown =>
      simpa [step9Loop, List.take_succ_cons, countReadys] using ih g ci fg
    | Step9Obs.state ButtonState.idle =>
      simp only [step9Loop]
      split
      · rfl
      · split
        · rfl
        · simpa [List.take_succ_cons, countReadys] using ih g (ci + 1) 0

/-- C6: step 9 declares completion only at an `idle` reading whose
consecutive-idle total (idle readings since the last `generating` — the
code's `consecutive_idle` counter, which `ready`, `unknown` and foreground
losses neither increment nor reset) has reached 3 when some `generating`
was observed, or the strictly longer run 5 when none was; every `ready`
reading triggers exactly one input-clearing call and is never counted
toward the consecutive-idle total. -/
theorem claim_c6 (viable : Bool) (obs : List Step9Obs) :
    ((step9_wait_for_response viable obs).result = true →
      ∃ k, k < obs.length ∧
        obs.get? k = some (Step9Obs.state ButtonState.idle) ∧
        (genSeen false (obs.take (k + 1)) = true →
          3 ≤ idleRun 0 (obs.take (k + 1))) ∧
        (genSeen false (obs.take (k + 1)) = false →
          5 ≤ idleRun 0 (obs.take (k + 1)))) ∧
    (step9_wait_for_response viable obs).clears =
      countReadys (obs.take (step9_wait_for_response viable obs).consumed) ∧
    (∀ (c : Nat) (l : List Step9Obs),
      idleRun c (Step9Obs.state ButtonState.ready :: l) = idleRun c l) := by
  refine ⟨?_, ?_, fun c l => rfl⟩
  · intro h
    unfold step9_wait_for_response at h
    split at h
    · simp at h
    · exact step9Loop_true_spec obs false 0 0 h
  · unfold step9_wait_for_response
    split
    · rfl
    · exact step9Loop_clears_spec obs false 0 0

/-- Witness for C6: on the trace `generating, ready, idle, idle, idle` the
step completes; `k = 4` is the completing idle reading, with one
`generating` seen and an idle run of 3 (the `ready` reading not counted). -/
theorem claim_c6_witness :
    ∃ k,
      k < ([Step9Obs.state ButtonState.generating,
        Step9Obs.state ButtonState.ready,
        Step9Obs.state ButtonState.idle, Step9Obs.state ButtonState.idle,
        Step9Obs.state ButtonState.idle] : List Step9Obs).length ∧
      ([Step9Obs.state ButtonState.generating,
        Step9Obs.state ButtonState.ready,
        Step9Obs.state ButtonState.idle, Step9Obs.state ButtonState.idle,
        Step9Obs.state ButtonState.idle] : List Step9Obs).get? k
        = some (Step9Obs.state ButtonState.idle) ∧
      (genSeen false (([Step9Obs.state ButtonState.generating,
          Step9Obs.state ButtonState.ready,
          Step9Obs.state ButtonState.idle, Step9Obs.state ButtonState.idle,
          Step9Obs.state ButtonState.idle] : List Step9Obs).take (k + 1))
          = true →
        3 ≤ idleRun 0 (([Step9Obs.state ButtonState.generating,
          Step9Obs.state ButtonState.ready,
          Step9Obs.state ButtonState.idle, Step9Obs.state ButtonState.idle,
          Step9Obs.state ButtonState.idle] : List Step9Obs).take (k + 1))) ∧
      (genSeen false (([Step9Obs.state ButtonState.generating,
          Step9Obs.state ButtonState.ready,
          Step9Obs.state ButtonState.idle, Step9Obs.state ButtonState.idle,
          Step9Obs.state ButtonState.idle] : List Step9Obs).take (k + 1))
          = false →
        5 ≤ idleRun 0 (([Step9Obs.state ButtonState.generating,
          Step9Obs.state ButtonState.ready,
          Step9Obs.state ButtonState.idle, Step9Obs.state ButtonState.idle,
          Step9Obs.state ButtonState.idle] : List Step9Obs).take (k + 1))) :=
  (claim_c6 true
      [Step9Obs.state ButtonState.generating,
        Step9Obs.state ButtonState.ready,
        Step9Obs.state ButtonState.idle, Step9Obs.state ButtonState.idle,
        Step9Obs.state ButtonState.idle]).1 (by decide)

/-! ## Step 7: focus input and send prompt (`robust_flow.py`)

Clipboard effects are tracked explicitly: the probe Ctrl+C and the
verification's Ctrl+A/Ctrl+C overwrite the clipboard with
environment-chosen text, `pyperclip.copy(prompt)` writes the prompt, and
on both the success exit and the retries-exhausted exit the saved previous
clipboard is written back whenever the initial `pyperclip.paste()` did not
raise. -/

/-- Environment of one iteration of step 7's readiness-probe loop. -/
structure Step7Attempt where
  fgProbe : Bool
  probeCopy : Option String
  isGen : Bool
  fgClear : Bool
  fgPaste : Bool
  pasteRaises : Bool
  verifyOk : Bool
  verifyCopy : Option String
  fgEnter : Bool
  enterRaises : Bool
deriving DecidableEq

/-- One iteration of the probe loop: `none` means the loop continues (after
the re-click), `some clip` means the prompt was sent; the second component
is the clipboard after the iteration. -/
def step7Attempt (prompt : String) (a : Step7Attempt) (clip : String) :
    Bool × String :=
  if a.fgProbe = false then (false, clip)
  else
    let clip1 := match a.probeCopy with
      | some t => t
      | none => clip
    if a.isGen then (false, clip1)
    else if a.fgClear = false then (false, clip1)
    else if a.fgPaste = false then (false, clip1)
    else
      let clip2 := prompt
      if a.pasteRaises then (false, clip2)
      else
        let clip3 := match a.verifyCopy with
          | some t => t
          | none => clip2
        if a.verifyOk = false then (false, clip3)
        else if a.fgEnter = false then (false, clip3)
        else if a.enterRaises then (false, clip3)
        else (true, clip3)

/-- The probe loop (`for attempt in range(max_attempts)`): on success the
saved clipboard is written back before `return True`, and when the attempt
list is exhausted it is written back before `return False` — but each
restore is `try: pyperclip.copy(previous_clipboard) except Exception:
pass`, so a raising restore (the corresponding `...Raises` oracle) is
swallowed and leaves the clipboard as the flow last set it. -/
def step7Loop (prompt : String) (saved : Option String)
    (restoreSuccessRaises restoreExhaustRaises : Bool) :
    List Step7Attempt → String → Bool × String
  | [], clip =>
      match saved with
      | some t => if restoreExhaustRaises then (false, clip) else (false, t)
      | none => (false, clip)
  | a :: rest, clip =>
      let r := step7Attempt prompt a clip
      if r.1 then
        match saved with
        | some t => if restoreSuccessRaises then (true, r.2) else (true, t)
        | none => (true, r.2)
      else
        step7Loop prompt saved restoreSuccessRaises restoreExhaustRaises
          rest r.2

/-- `step7_send_prompt(prompt)` (with `verify_entry=True`): early exits for
viability, input focus and a missing rect precede the clipboard save;
`clipReadOk = false` models `pyperclip.paste()` raising (then
`previous_clipboard = None` and no restore is attempted); the two
`...Raises` flags model the best-effort restore writes raising at the
success exit and at the exhaustion exit. -/
def step7_send_prompt (prompt : String)
    (viable focusOk rectPresent clipReadOk : Bool)
    (restoreSuccessRaises restoreExhaustRaises : Bool)
    (attempts : List Step7Attempt) (clip0 : String) : Bool × String :=
  if viable = false then (false, clip0)
  else if focusOk = false then (false, clip0)
  else if rectPresent = false then (false, clip0)
  else
    let saved : Option String := if clipReadOk then some clip0 else none
    step7Loop prompt saved restoreSuccessRaises restoreExhaustRaises
      attempts clip0

theorem step7Loop_restores (prompt clip0 : String) :
    ∀ (attempts : List Step7Attempt) (clip : String),
      (step7Loop prompt (some clip0) false false attempts clip).2
        = clip0 := by
  intro attempts
  induction attempts with
  | nil => intro clip; rfl
  | cons a rest ih =>
    intro clip
    simp only [step7Loop]
    split
    · rfl
    · exact ih (step7Attempt prompt a clip).2

/-- C10 (amended): whenever the clipboard save on entry succeeded and the
best-effort restore write does not itself raise, `step7_send_prompt`
leaves the clipboard exactly as it found it — on the successful-send path,
on the retries-exhausted path, and trivially on the early exits that
precede any clipboard use — despite the probe copies, the prompt paste and
the verification copies it performs in between.  (The original claim is
refuted by `claim_c10_counterexample`: the restore is wrapped in
`except: pass`, so a raising restore leaves the clipboard clobbered.) -/
theorem claim_c10 (prompt : String) (viable focusOk rectPresent : Bool)
    (attempts : List Step7Attempt) (clip0 : String) :
    (step7_send_prompt prompt viable focusOk rectPresent true false false
        attempts clip0).2 = clip0 := by
  unfold step7_send_prompt
  split
  · rfl
  · split
    · rfl
    · split
      · rfl
      · exact step7Loop_restores prompt clip0 attempts clip0

/-- Counterexample to C10 as stated: the save on entry succeeded, the
prompt `"p"` is pasted and sent on the first attempt, but the success-path
restore write raises (swallowed by its `except: pass`), so the function
returns with the clipboard still holding the prompt instead of the saved
`"orig"` — the clipboard is not unchanged. -/
theorem claim_c10_counterexample :
    (step7_send_prompt "p" true true true true true false
        [⟨true, none, false, true, true, false, true, none, true, false⟩]
        "orig").2 = "p" ∧ "p" ≠ "orig" := by decide

/-! ## Escalation controller (`driver_robust.py`)

`RobustDriver.escalate` wraps `execute_full_flow` in up to 4 total
attempts; `_derive_error_reason` maps `(failed_step, error)` to a reason
code; only `invalid_config` and `invalid_response` stop the retrying. -/

/-- `str.strip()`. -/
def trimStr (s : String) : String :=
  ⟨((s.data.dropWhile Char.isWhitespace).reverse.dropWhile
      Char.isWhitespace).reverse⟩

/-- Outcome of one `execute_full_flow` run. -/
inductive FlowRes where
  | ok (response : String)
  | err (failedStep : Option Nat) (error : String)
deriving DecidableEq

/-- `NON_RECOVERABLE_REASONS`. -/
def NON_RECOVERABLE_REASONS : List String :=
  ["invalid_config", "invalid_response"]

/-- The per-step base reason table (`step_reasons`, with the
`f-string` fallback). -/
def stepReasonBase (step : Nat) : String :=
  match step with
  | 1 => "kill_failed"
  | 2 => "start_failed"
  | 3 => "focus_failed"
  | 4 => "sidebar_failed"
  | 5 => "project_not_found"
  | 6 => "conversation_not_found"
  | 7 => "send_failed"
  | 9 => "response_timeout"
  | 10 => "copy_failed"
  | n => "step" ++ Nat.repr n ++ "_failed"

/-- `RobustDriver._derive_error_reason(step, error)`. -/
def derive_error_reason (step : Option Nat) (error : String) : String :=
  match step with
  | none => "unknown"
  | some st =>
      let errorLower := lowerStr error
      let baseReason := stepReasonBase st
      if strContains errorLower "empty" ||
          strContains errorLower "too short" then "empty_response"
      else if strContains errorLower "not found" ||
          strContains errorLower "failed to find" then
        if st = 5 then "project_not_found"
        else if st = 6 then "conversation_not_found"
        else baseReason
      else if strContains errorLower "timeout" then "timeout"
      else if strContains errorLower "focus" then "focus_lost"
      else if strContains errorLower "validation failed" then
        "invalid_response"
      else baseReason

/-- The dictionary `escalate` returns. -/
inductive EscalateRes where
  | success (response : String) (attempts : Nat)
  | failure (failedStep : Option Nat) (reason : Option String)
      (attempts : Nat)
deriving DecidableEq

/-- `escalate`'s result together with the number of `execute_full_flow`
invocations it performed. -/
structure EscalateOut where
  result : EscalateRes
  flowRuns : Nat
deriving DecidableEq

/-- The attempt loop of `escalate` (`for attempt in range(max_attempts)`
with `max_attempts = 4`): a success with a non-trivial response returns
immediately with `attempts = attempt + 1`; a success with an empty/short
response is retried as `empty_response`; a failure derives its reason and
retries unless the reason is non-recoverable, in which case the loop
breaks; the after-loop failure return always reports `attempts = 4`. -/
def escalateGo (env : Nat → FlowRes) :
    Nat → Nat → Option (Option Nat × String) → EscalateOut
  | 0, _, last =>
      match last with
      | some (st, r) => ⟨EscalateRes.failure st (some r) 4, 0⟩
      | none => ⟨EscalateRes.failure none none 4, 0⟩
  | n + 1, i, _ =>
      match env i with
      | FlowRes.ok resp =>
          if resp ≠ "" ∧ 10 < (trimStr resp).data.length then
            ⟨EscalateRes.success resp (i + 1), 1⟩
          else
            let r := escalateGo env n (i + 1) (some (some 10, "empty_response"))
            ⟨r.result, r.flowRuns + 1⟩
      | FlowRes.err st errMsg =>
          let reason := derive_error_reason st errMsg
          if reason ∈ NON_RECOVERABLE_REASONS then
            ⟨EscalateRes.failure st (some reason) 4, 1⟩
          else
            let r := escalateGo env n (i + 1) (some (st, reason))
            ⟨r.result, r.flowRuns + 1⟩

/-- `RobustDriver.escalate(...)` driven by the per-attempt flow outcomes
`env`. -/
def escalate (env : Nat → FlowRes) : EscalateOut :=
  escalateGo env 4 0 none

theorem escalateGo_runs_le (env : Nat → FlowRes) :
    ∀ (n i : Nat) (last : Option (Option Nat × String)),
      (escalateGo env n i last).flowRuns ≤ n := by
  intro n
  induction n with
  | zero =>
    intro i last
    match last with
    | some (st, r) => exact Nat.le_refl 0
    | none => exact Nat.le_refl 0
  | succ n ih =>
    intro i last
    simp only [escalateGo]
    match env i with
    | FlowRes.ok resp =>
      dsimp only
      split
      · exact Nat.le_add_left 1 n
      · exact Nat.succ_le_succ (ih (i + 1) _)
    | FlowRes.err st errMsg =>
      dsimp only
      split
      · exact Nat.le_add_left 1 n
      · exact Nat.succ_le_succ (ih (i + 1) _)

theorem escalateGo_succ_ok (env : Nat → FlowRes) (n i : Nat)
    (last : Option (Option Nat × String)) (resp : String)
    (h : env i = FlowRes.ok resp) :
    escalateGo env (n + 1) i last =
      if resp ≠ "" ∧ 10 < (trimStr resp).data.length then
        ⟨EscalateRes.success resp (i + 1), 1⟩
      else
        ⟨(escalateGo env n (i + 1) (some (some 10, "empty_response"))).result,
          (escalateGo env n (i + 1)
            (some (some 10, "empty_response"))).flowRuns + 1⟩ := by
  simp only [escalateGo, h]

theorem escalateGo_succ_err (env : Nat → FlowRes) (n i : Nat)
    (last : Option (Option Nat × String)) (stp : Option Nat)
    (errMsg : String) (h : env i = FlowRes.err stp errMsg) :
    escalateGo env (n + 1) i last =
      if derive_error_reason stp errMsg ∈ NON_RECOVERABLE_REASONS then
        ⟨EscalateRes.failure stp (some (derive_error_reason stp errMsg)) 4, 1⟩
      else
        ⟨(escalateGo env n (i + 1)
            (some (stp, derive_error_reason stp errMsg))).result,
          (escalateGo env n (i + 1)
            (some (stp, derive_error_reason stp errMsg))).flowRuns + 1⟩ := by
  simp only [escalateGo, h]

theorem escalateGo_early_stop (env : Nat → FlowRes) :
    ∀ (n i : Nat) (last : Option (Option Nat × String)) (st : Option Nat)
      (r : Option String) (att : Nat),
      (escalateGo env n i last).result = EscalateRes.failure st r att →
        (escalateGo env n i last).flowRuns < n →
          r = some "invalid_config" ∨ r = some "invalid_response" := by
  intro n
  induction n with
  | zero =>
    intro i last st r att _ hlt
    exact absurd hlt (Nat.not_lt_zero _)
  | succ n ih =>
    intro i last st r att hres hlt
    cases henv : env i with
    | ok resp =>
      rw [escalateGo_succ_ok env n i last resp henv] at hres hlt
      split at hres
      · exact absurd hres (by simp)
      · rename_i hcond
        rw [if_neg hcond] at hlt
        dsimp only at hres hlt
        exact ih (i + 1) _ st r att hres (by omega)
    | err stp errMsg =>
      rw [escalateGo_succ_err env n i last stp errMsg henv] at hres hlt
      split at hres
      · rename_i hnonrec
        dsimp only at hres
        injection hres with h1 h2 h3
        subst h2
        simp [NON_RECOVERABLE_REASONS] at hnonrec
        rcases hnonrec with h | h
        · exact Or.inl (by rw [h])
        · exact Or.inr (by rw [h])
      · rename_i hnonrec
        rw [if_neg hnonrec] at hlt
        dsimp only at hres hlt
        exact ih (i + 1) _ st r att hres (by omega)

theorem escalateGo_exhausts (env : Nat → FlowRes) :
    ∀ (n i : Nat) (last : Option (Option Nat × String)) (st : Option Nat)
      (r : Option String) (att : Nat),
      (escalateGo env n i last).result = EscalateRes.failure st r att →
        (∀ t, r = some t → t ∉ NON_RECOVERABLE_REASONS) →
          (escalateGo env n i last).flowRuns = n := by
  intro n
  induction n with
  | zero =>
    intro i last st r att _ _
    match last with
    | some (stp, rr) => rfl
    | none => rfl
  | succ n ih =>
    intro i last st r att hres hrec
    cases henv : env i with
    | ok resp =>
      rw [escalateGo_succ_ok env n i last resp henv] at hres ⊢
      split at hres
      · exact absurd hres (by simp)
      · rename_i hcond
        rw [if_neg hcond]
        dsimp only at hres ⊢
        rw [ih (i + 1) _ st r att hres hrec]
    | err stp errMsg =>
      rw [escalateGo_succ_err env n i last stp errMsg henv] at hres ⊢
      split at hres
      · rename_i hnonrec
        dsimp only at hres
        injection hres with h1 h2 h3
        exact absurd hnonrec (hrec _ h2.symm)
      · rename_i hnonrec
        rw [if_neg hnonrec]
        dsimp only at hres ⊢
        rw [ih (i + 1) _ st r att hres hrec]

/-- C1 (amended): the Escalation Controller runs the flow at most 4 times;
it stops retrying before exhausting that budget only when the derived
reason code is non-recoverable (`invalid_config` or `invalid_response`),
and for every failure whose derived reason is any other code — including
`kill_failed`, `project_not_found`, `conversation_not_found`, `timeout`
and `copy_failed`, which the spec lists as immediately surfacing — it
keeps restarting the whole flow until all 4 attempts are used. -/
theorem claim_c1 (env : Nat → FlowRes) :
    (escalate env).flowRuns ≤ 4 ∧
    (∀ (st : Option Nat) (r : Option String) (att : Nat),
      (escalate env).result = EscalateRes.failure st r att →
        (escalate env).flowRuns < 4 →
          r = some "invalid_config" ∨ r = some "invalid_response") ∧
    (∀ (st : Option Nat) (r : Option String) (att : Nat),
      (escalate env).result = EscalateRes.failure st r att →
        (∀ t, r = some t → t ∉ NON_RECOVERABLE_REASONS) →
          (escalate env).flowRuns = 4) :=
  ⟨escalateGo_runs_le env 4 0 none,
    fun st r att h1 h2 => escalateGo_early_stop env 4 0 none st r att h1 h2,
    fun st r att h1 h2 => escalateGo_exhausts env 4 0 none st r att h1 h2⟩

/-- Witness for C1 at a concrete environment: a validation failure derives
`invalid_response`, the loop breaks after a single flow run (1 < 4), and
the reason is one of the two non-recoverable codes. -/
theorem claim_c1_witness :
    (some "invalid_response" : Option String) = some "invalid_config" ∨
      (some "invalid_response" : Option String) = some "invalid_response" :=
  (claim_c1 (fun _ => FlowRes.err (some 10)
      "Response validation failed after 3 attempts")).2.1
    (some 10) (some "invalid_response") 4 (by decide) (by decide)

/-- Counterexample to C1 as stated: a step-1 failure derives `kill_failed`,
which the claim places among the immediately-surfacing codes; the
controller nevertheless restarts the machine, and the second attempt's
success is returned (`attempts = 2`, two flow runs), instead of the
failure surfacing after one run. -/
theorem claim_c1_counterexample :
    derive_error_reason (some 1) "Failed to kill ChatGPT" = "kill_failed" ∧
    escalate (fun i =>
        if i = 0 then FlowRes.err (some 1) "Failed to kill ChatGPT"
        else FlowRes.ok "a sufficiently long response")
      = ⟨EscalateRes.success "a sufficiently long response" 2, 2⟩ := by
  decide

/-- Witness for C3 at a concrete environment. -/
theorem claim_c3_witness :
    step6_click_conversation ⟨true, [⟨true, true, "anything"⟩], false, ""⟩
      "name" = true :=
  ((claim_c3 "name" "x" "y"
      ⟨true, [⟨true, true, "anything"⟩], false, ""⟩).2).mpr
    ⟨rfl, Or.inl ⟨⟨true, true, "anything"⟩, List.mem_cons_self _ _, rfl, rfl⟩⟩

/-- Witness for C9 at a concrete count. -/
theorem claim_c9_witness : classifyDarkPixels 100 = ButtonState.generating :=
  (claim_c9 100).1.mpr (by omega)

/-- Witness for C10 (amended) at a concrete run. -/
theorem claim_c10_witness :
    (step7_send_prompt "p" true true true true false false
        [⟨true, some "x", false, true, true, false, true, some "y", true,
          false⟩] "orig").2 = "orig" :=
  claim_c10 "p" true true true
    [⟨true, some "x", false, true, true, false, true, some "y", true, false⟩]
    "orig"

/-! ## Response validation and the response-retry loop (`robust_flow.py`)

`execute_full_flow` validates the copied response with
`_is_valid_json_response` only: non-trivially long, JSON object (after
stripping markdown fences) with one of the expected fields.  The
template-phrase detector `_is_template_response` exists in the source but
has no caller.  `json.loads` (an external collaborator, Python's stdlib
parser) is embedded as `json_loads`; numbers become exact rationals,
duplicate object keys resolve to the last occurrence as in a Python dict,
and unpaired `\u` surrogates — unrepresentable in `Char` — are treated as
parse failures. -/

mutual
inductive JVal where
  | jnull
  | jbool (b : Bool)
  | jnum (q : ℚ)
  | jstr (s : String)
  | jarr (items : JArr)
  | jobj (fields : JObj)
inductive JArr where
  | anil
  | acons (hd : JVal) (tl : JArr)
inductive JObj where
  | onil
  | ocons (key : String) (val : JVal) (tl : JObj)
end

/-- Dict lookup with Python semantics: a later duplicate key wins. -/
def JObj.find : JObj → String → Option JVal
  | JObj.onil, _ => none
  | JObj.ocons key v tl, k =>
      match JObj.find tl k with
      | some r => some r
      | none => if key = k then some v else none

/-- `k in dict`. -/
def JObj.hasKey : JObj → String → Bool
  | JObj.onil, _ => false
  | JObj.ocons key _ tl, k => key = k || JObj.hasKey tl k

/-- JSON whitespace (the four characters `json.loads` skips). -/
def jsonWsChar (c : Char) : Bool :=
  c = ' ' || c = '\t' || c = '\n' || c = '\x0d'

/-- Skip JSON whitespace. -/
def skipWs (cs : List Char) : List Char := cs.dropWhile jsonWsChar

/-- Value of a hex digit. -/
def hexVal (c : Char) : Option Nat :=
  if '0' ≤ c ∧ c ≤ '9' then some (c.toNat - 48)
  else if 'a' ≤ c ∧ c ≤ 'f' then some (c.toNat - 87)
  else if 'A' ≤ c ∧ c ≤ 'F' then some (c.toNat - 55)
  else none

/-- Body of a JSON string after the opening quote: returns the decoded
characters and the input after the closing quote. -/
def parseStringBody : Nat → List Char → Option (List Char × List Char)
  | 0, _ => none
  | fuel + 1, cs =>
      match cs with
      | [] => none
      | '"' :: rest => some ([], rest)
      | '\\' :: rest =>
          match rest with
          | [] => none
          | e :: rest2 =>
              let esc : Option Char :=
                if e = '"' then some '"'
                else if e = '\\' then some '\\'
                else if e = '/' then some '/'
                else if e = 'b' then some '\x08'
                else if e = 'f' then some '\x0c'
                else if e = 'n' then some '\n'
                else if e = 'r' then some '\x0d'
                else if e = 't' then some '\t'
                else none
              match esc with
              | some c =>
                  (parseStringBody fuel rest2).map (fun r => (c :: r.1, r.2))
              | none =>
                  if e = 'u' then
                    match rest2 with
                    | h1 :: h2 :: h3 :: h4 :: rest3 =>
                        match hexVal h1, hexVal h2, hexVal h3, hexVal h4 with
                        | some a, some b, some c, some d =>
                            let code := ((a * 16 + b) * 16 + c) * 16 + d
                            if code < 0xd800 then
                              (parseStringBody fuel rest3).map
                                (fun r => (Char.ofNat code :: r.1, r.2))
                            else none
                        | _, _, _, _ => none
                    | _ => none
                  else none
      | c :: rest =>
          if c.toNat < 32 then none
          else (parseStringBody fuel rest).map (fun r => (c :: r.1, r.2))

/-- ASCII digit test. -/
def isDigitCh (c : Char) : Bool := '0' ≤ c && c ≤ '9'

/-- Split off a (possibly empty) run of digits. -/
def takeDigits (cs : List Char) : List Char × List Char :=
  (cs.takeWhile isDigitCh, cs.dropWhile isDigitCh)

/-- Digits to their value. -/
def digitsToNat (ds : List Char) : Nat :=
  ds.foldl (fun acc c => acc * 10 + (c.toNat - 48)) 0

/-- A JSON number (`-?(0|[1-9][0-9]*)(\.[0-9]+)?([eE][+-]?[0-9]+)?`) as an
exact rational. -/
def parseNumber (cs : List Char) : Option (ℚ × List Char) :=
  let sign := match cs with
    | '-' :: t => (true, t)
    | _ => (false, cs)
  let neg := sign.1
  let cs1 := sign.2
  match cs1 with
  | [] => none
  | c :: _ =>
      if isDigitCh c = false then none
      else
        let ip := takeDigits cs1
        let intDigits := ip.1
        let cs2 := ip.2
        if 1 < intDigits.length ∧ intDigits.headD '0' = '0' then none
        else
          let fp := match cs2 with
            | '.' :: t =>
                let d := takeDigits t
                (true, d.1, d.2)
            | _ => (false, [], cs2)
          let hadDot := fp.1
          let fracDigits := fp.2.1
          let cs3 := fp.2.2
          if hadDot ∧ fracDigits = [] then none
          else
            let ep := match cs3 with
              | e :: t =>
                  if e = 'e' ∨ e = 'E' then
                    match t with
                    | '+' :: t2 => (true, false, takeDigits t2)
                    | '-' :: t2 => (true, true, takeDigits t2)
                    | _ => (true, false, takeDigits t)
                  else (false, false, ([], cs3))
              | [] => (false, false, ([], cs3))
            let hadExp := ep.1
            let expNeg := ep.2.1
            let expDigits := (ep.2.2).1
            let cs4 := (ep.2.2).2
            if hadExp ∧ expDigits = [] then none
            else
              let mantissa : Int :=
                (if neg then -1 else 1) *
                  (digitsToNat (intDigits ++ fracDigits) : Int)
              let expVal : Int :=
                (if expNeg then -(digitsToNat expDigits : Int)
                  else (digitsToNat expDigits : Int)) -
                  (fracDigits.length : Int)
              let value : ℚ :=
                if 0 ≤ expVal then
                  mkRat (mantissa * (10 ^ expVal.toNat : Nat)) 1
                else mkRat mantissa (10 ^ (-expVal).toNat)
              some (value, if hadExp then cs4 else cs3)

mutual
/-- A JSON value, ties of the recursive grammar resolved by `fuel`
(bounded by the input length). -/
def parseValue : Nat → List Char → Option (JVal × List Char)
  | 0, _ => none
  | fuel + 1, cs =>
      match skipWs cs with
      | [] => none
      | c :: rest =>
          if c = '{' then
            match skipWs rest with
            | '}' :: rest2 => some (JVal.jobj JObj.onil, rest2)
            | _ => (parseObjRest fuel rest).map
                (fun r => (JVal.jobj r.1, r.2))
          else if c = '[' then
            match skipWs rest with
            | ']' :: rest2 => some (JVal.jarr JArr.anil, rest2)
            | _ => (parseArrRest fuel rest).map
                (fun r => (JVal.jarr r.1, r.2))
          else if c = '"' then
            (parseStringBody (fuel + 1) rest).map
              (fun r => (JVal.jstr ⟨r.1⟩, r.2))
          else if listPrefixEq ['t', 'r', 'u', 'e'] (c :: rest) then
            some (JVal.jbool true, (c :: rest).drop 4)
          else if listPrefixEq ['f', 'a', 'l', 's', 'e'] (c :: rest) then
            some (JVal.jbool false, (c :: rest).drop 5)
          else if listPrefixEq ['n', 'u', 'l', 'l'] (c :: rest) then
            some (JVal.jnull, (c :: rest).drop 4)
          else (parseNumber (c :: rest)).map (fun r => (JVal.jnum r.1, r.2))

/-- Members of an object (after `{`, first member not yet read). -/
def parseObjRest : Nat → List Char → Option (JObj × List Char)
  | 0, _ => none
  | fuel + 1, cs =>
      match skipWs cs with
      | '"' :: rest =>
          match parseStringBody (fuel + 1) rest with
          | none => none
          | some (key, cs2) =>
              match skipWs cs2 with
              | ':' :: cs3 =>
                  match parseValue fuel cs3 with
                  | none => none
                  | some (v, cs4) =>
                      match skipWs cs4 with
                      | ',' :: cs5 =>
                          (parseObjRest fuel cs5).map
                            (fun r => (JObj.ocons ⟨key⟩ v r.1, r.2))
                      | '}' :: cs5 => some (JObj.ocons ⟨key⟩ v JObj.onil, cs5)
                      | _ => none
              | _ => none
      | _ => none

/-- Items of an array (after `[`, first item not yet read). -/
def parseArrRest : Nat → List Char → Option (JArr × List Char)
  | 0, _ => none
  | fuel + 1, cs =>
      match parseValue fuel cs with
      | none => none
      | some (v, cs2) =>
          match skipWs cs2 with
          | ',' :: cs3 =>
              (parseArrRest fuel cs3).map (fun r => (JArr.acons v r.1, r.2))
          | ']' :: cs3 => some (JArr.acons v JArr.anil, cs3)
          | _ => none
end

/-- `json.loads(s)`: a single value with only whitespace around it.
(The nonstandard `NaN`/`Infinity` literals Python additionally accepts are
not modelled; no caller feeds them.) -/
def json_loads (s : String) : Option JVal :=
  match parseValue (s.data.length + 2) s.data with
  | some (v, rest) => if skipWs rest = [] then some v else none
  | none => none

/-- `s.startswith(pre)`. -/
def strStartsWith (s pre : String) : Bool := listPrefixEq pre.data s.data

/-- `s.split("\n")` (keeps empty pieces). -/
def splitNLList : List Char → List (List Char)
  | [] => [[]]
  | c :: cs =>
      let r := splitNLList cs
      if c = '\n' then [] :: r
      else
        match r with
        | h :: t => (c :: h) :: t
        | [] => [[c]]

/-- `"\n".join(lines)`. -/
def joinNLList : List (List Char) → List Char
  | [] => []
  | [l] => l
  | l :: ls => l ++ '\n' :: joinNLList ls

/-- `RobustChatGPTFlow._is_valid_json_response(response)`: non-trivially
long, markdown fences stripped, parses as a JSON object carrying at least
one of `guidance`, `action_plan`, `priority`. -/
def is_valid_json_response (response : String) : Bool :=
  if response = "" || response.data.length < 20 then false
  else
    let jsonText := trimStr response
    let jsonText2 :=
      if strStartsWith jsonText "```" then
        String.mk (joinNLList
          ((((splitNLList jsonText.data).map
              (fun l => (⟨l⟩ : String))).filter
            (fun l => !(strStartsWith (trimStr l) "```"))).map
              (fun l => l.data)))
      else jsonText
    match json_loads jsonText2 with
    | some (JVal.jobj fields) =>
        fields.hasKey "guidance" || fields.hasKey "action_plan" ||
          fields.hasKey "priority"
    | some _ => false
    | none => false

/-- The fixed template-guidance phrases of `_is_template_response`. -/
def template_guidance_phrases : List String :=
  ["one-sentence summary", "your main guidance", "explanation here",
    "what the agent should do"]

/-- The fixed template action-plan phrases. -/
def template_plan_phrases : List String :=
  ["step 1", "step 2", "step 3", "action 1", "action 2"]

mutual
/-- Whether `str(v)` of a JSON-derived Python value contains a bar: exactly
when some string literal (value or key) inside `v` does — no other piece of
a Python repr of such a value produces the character. -/
def jvalHasBar : JVal → Bool
  | JVal.jstr s => strContains s "|"
  | JVal.jarr a => jarrHasBar a
  | JVal.jobj o => jobjHasBar o
  | _ => false
def jarrHasBar : JArr → Bool
  | JArr.anil => false
  | JArr.acons h t => jvalHasBar h || jarrHasBar t
def jobjHasBar : JObj → Bool
  | JObj.onil => false
  | JObj.ocons k v t => strContains k "|" || jvalHasBar v || jobjHasBar t
end

/-- `str(step).lower().strip()` equals a template plan phrase — only a
string item can render to one of those phrases. -/
def jarrAnyTemplateStep : JArr → Bool
  | JArr.anil => false
  | JArr.acons h t =>
      (match h with
        | JVal.jstr s => template_plan_phrases.contains (trimStr (lowerStr s))
        | _ => false) || jarrAnyTemplateStep t

/-- The guidance / action-plan / wrong-field checks of
`_is_template_response` after the priority check. -/
def templateTailChecks (g : String) (fields : JObj) : Except Unit Bool :=
  let gl := lowerStr g
  if template_guidance_phrases.any (fun p => strContains gl p) then
    Except.ok true
  else
    let planHit := match fields.find "action_plan" with
      | some (JVal.jarr items) => jarrAnyTemplateStep items
      | _ => false
    if planHit then Except.ok true
    else if fields.hasKey "notes_for_darien" then Except.ok true
    else Except.ok false

/-- `RobustChatGPTFlow._is_template_response(response)`; dead code in the
source (no caller).  A non-string `guidance` value makes Python's
`.lower()` raise (`Except.error`). -/
def is_template_response (response : JVal) : Except Unit Bool :=
  match response with
  | JVal.jobj fields =>
      let priorityHasBar := match fields.find "priority" with
        | some v => jvalHasBar v
        | none => false
      if priorityHasBar then Except.ok true
      else
        match fields.find "guidance" with
        | some (JVal.jstr g) => templateTailChecks g fields
        | some _ => Except.error ()
        | none => templateTailChecks "" fields
  | _ => Except.ok false

/-- Environment of one iteration of the response-retry loop of
`execute_full_flow` (steps 7, 9, 10 as oracles; `response = ""` is a
step-10 failure). -/
structure C2Attempt where
  step7Ok : Bool
  step9Ok : Bool
  response : String
deriving DecidableEq

/-- Outcome of `execute_full_flow`'s response phase. -/
inductive FlowOut where
  | success (response : String)
  | failure (failedStep : Nat) (error : String)
deriving DecidableEq

/-- The clarifying prefix prepended on a response retry. -/
def clarificationText : String :=
  "Please ignore any messages above that don\x27t match this format. Here is my actual question:\n\n"

/-- The response-retry loop
(`for response_attempt in range(max_response_retries + 1)`); the second
component collects the prompts handed to step 7, in order. -/
def responseLoop (prompt : String) (env : Nat → C2Attempt) :
    Nat → Nat → FlowOut × List String
  | 0, _ =>
      (FlowOut.failure 10 "Response validation failed after 3 attempts", [])
  | n + 1, i =>
      let retryPrompt := if 0 < i then clarificationText ++ prompt
        else prompt
      let a := env i
      if a.step7Ok = false then
        (FlowOut.failure 7 "Failed to focus/send prompt", [retryPrompt])
      else if a.step9Ok = false then
        (FlowOut.failure 9 "Timeout waiting for response", [retryPrompt])
      else if a.response = "" then
        (FlowOut.failure 10 "Failed to copy response", [retryPrompt])
      else if is_valid_json_response a.response then
        (FlowOut.success a.response, [retryPrompt])
      else
        let r := responseLoop prompt env n (i + 1)
        (r.1, retryPrompt :: r.2)

/-- The response phase of `execute_full_flow` with its default
`max_response_retries = 2` (three attempts). -/
def execute_response_phase (prompt : String) (env : Nat → C2Attempt) :
    FlowOut × List String :=
  responseLoop prompt env 3 0

theorem responseLoop_success_valid (prompt : String) (env : Nat → C2Attempt) :
    ∀ (n i : Nat) (r : String),
      (responseLoop prompt env n i).1 = FlowOut.success r →
        is_valid_json_response r = true ∧ r ≠ "" := by
  intro n
  induction n with
  | zero =>
    intro i r h
    exact absurd h (by simp [responseLoop])
  | succ n ih =>
    intro i r h
    simp only [responseLoop] at h
    split at h
    · exact absurd h (by simp)
    · split at h
      · exact absurd h (by simp)
      · split at h
        · exact absurd h (by simp)
        · split at h
          · rename_i hval
            rename_i hne
            injection h with hr
            subst hr
            exact ⟨hval, fun hc => hne (by rw [hc])⟩
          · exact ih (i + 1) r h

/-- The template string of the end-to-end scenario: a JSON object whose
`priority` is the template text with bars. -/
def template_priority_text : String :=
  "\x7b\"priority\": \"low | medium | high\"\x7d"

/-- C2 (amended): an apparently successful flow is validated only by
`_is_valid_json_response` (non-trivially long, JSON object with one of the
expected fields): every success carries a validated non-empty response; a
first response passing that check is returned at once with only the
original prompt sent, whatever the (never-invoked) template detector would
say; and only a response failing the JSON check triggers the retry with
the clarifying prefix. -/
theorem claim_c2 (prompt : String) (env : Nat → C2Attempt) :
    (∀ r, (execute_response_phase prompt env).1 = FlowOut.success r →
      is_valid_json_response r = true ∧ r ≠ "") ∧
    ((env 0).step7Ok = true → (env 0).step9Ok = true →
      (env 0).response ≠ "" →
      is_valid_json_response ((env 0).response) = true →
      execute_response_phase prompt env
        = (FlowOut.success ((env 0).response), [prompt])) ∧
    ((env 0).step7Ok = true → (env 0).step9Ok = true →
      (env 0).response ≠ "" →
      is_valid_json_response ((env 0).response) = false →
      (env 1).step7Ok = true → (env 1).step9Ok = true →
      (env 1).response ≠ "" →
      is_valid_json_response ((env 1).response) = true →
      execute_response_phase prompt env
        = (FlowOut.success ((env 1).response),
            [prompt, clarificationText ++ prompt])) := by
  refine ⟨fun r => responseLoop_success_valid prompt env 3 0 r, ?_, ?_⟩
  · intro h7 h9 hr hv
    simp [execute_response_phase, responseLoop, h7, h9, hr, hv]
  · intro h7 h9 hr hv h7b h9b hrb hvb
    simp [execute_response_phase, responseLoop, h7, h9, hr, hv, h7b, h9b,
      hrb, hvb]

/-- Witness for C2 at a concrete environment: the first response passes the
JSON validation and is returned at once with only the original prompt
sent. -/
theorem claim_c2_witness :
    execute_response_phase "q" (fun _ => ⟨true, true, template_priority_text⟩)
      = (FlowOut.success template_priority_text, ["q"]) :=
  (claim_c2 "q" (fun _ => ⟨true, true, template_priority_text⟩)).2.1 rfl rfl
    (by decide) (by decide)

/-- Counterexample to C2 as stated: the retrieved text equal to the known
template placeholder (priority `"low | medium | high"`) parses as a JSON
object with an expected field, so `_is_valid_json_response` accepts it and
the flow returns it as success on the first attempt with no clarifying
retry — even though the code's own (never-invoked) template detector
classifies exactly this object as a template. -/
theorem claim_c2_counterexample :
    is_valid_json_response template_priority_text = true ∧
    json_loads template_priority_text
      = some (JVal.jobj (JObj.ocons "priority"
          (JVal.jstr "low | medium | high") JObj.onil)) ∧
    is_template_response (JVal.jobj (JObj.ocons "priority"
        (JVal.jstr "low | medium | high") JObj.onil)) = Except.ok true ∧
    execute_response_phase "q" (fun _ => ⟨true, true, template_priority_text⟩)
      = (FlowOut.success template_priority_text, ["q"]) :=
  ⟨by decide, by rfl, by rfl, by rfl⟩

end ChatGPTEsc
